import Mathlib

/-!
# Verification of the NMRPipe gdb/tab parser and its domain extractors

A shallow embedding of `src/transcoders/nmrpipe/nmrpipe_lib.py` (NEF-Pipelines)
together with the parts of `src/lib/structures.py` it uses, and proofs of the
spec claims about them.

Modelling conventions:
* An input file is a list of lines, each line already tokenized into its
  whitespace-separated fields (`List String`).  A blank line (after stripping)
  is the empty token list; this matches `line.strip() == ''  ↔  line.split() == []`.
* Python values flowing through records are modelled by `PyVal`
  (int / float / str / None).  Python floats are modelled exactly as rationals.
* Python exceptions become `Except`: parser-level `BadNmrPipeFile` subclasses
  become `PipeError`; runtime exceptions inside the extractors
  (KeyError, IndexError, ZeroDivisionError, TypeError, AttributeError)
  become `PyErr`.
* `int(...)` / `float(...)` conversion of a token is modelled by
  `pyInt` / `pyFloat` (sign, digits, optional decimal point and exponent;
  `inf`/`nan`/underscore forms are not modelled).
* The `REMARK` header record stores the whole (stripped) line in Python;
  here it stores the tokens re-joined with single spaces.
-/

namespace NmrPipe

deriving instance DecidableEq for Except

/-- A Python value as it appears in parsed gdb records. -/
inductive PyVal where
  | vInt (n : Int)
  | vFloat (q : Rat)
  | vStr (s : String)
  | vNone
deriving DecidableEq

/-- Numeric value of a list of decimal digit characters. -/
def digitsVal (cs : List Char) : Nat :=
  cs.foldl (fun a c => a * 10 + (c.toNat - 48)) 0

/-- Core of Python `int(...)`: nonempty all-digit strings. -/
def pyIntCore (cs : List Char) : Option Int :=
  if cs ≠ [] ∧ cs.all (·.isDigit) then some (digitsVal cs) else none

/-- Python `int(token)`: optional sign followed by digits. -/
def pyInt (s : String) : Option Int :=
  match s.data with
  | '+' :: rest => pyIntCore rest
  | '-' :: rest => (pyIntCore rest).map Neg.neg
  | rest => pyIntCore rest

/-- Split a char list at the first `e`/`E` (exponent marker). -/
def splitExp : List Char → (List Char × Option (List Char))
  | [] => ([], none)
  | c :: rest =>
    if c = 'e' ∨ c = 'E' then ([], some rest)
    else
      let (m, e) := splitExp rest
      (c :: m, e)

/-- Split a char list at the first `.` (decimal point). -/
def splitDot : List Char → (List Char × Option (List Char))
  | [] => ([], none)
  | c :: rest =>
    if c = '.' then ([], some rest)
    else
      let (i, f) := splitDot rest
      (c :: i, f)

/-- Value of the mantissa part: digits with at most one decimal point,
at least one digit overall. -/
def mantissaVal (cs : List Char) : Option Rat :=
  let (ip, fp?) := splitDot cs
  match fp? with
  | none =>
    if ip ≠ [] ∧ ip.all (·.isDigit) then some ((digitsVal ip : Nat) : Rat) else none
  | some fp =>
    if (ip ++ fp) ≠ [] ∧ (ip ++ fp).all (·.isDigit) then
      some (((digitsVal (ip ++ fp) : Nat) : Rat) / (10 : Rat) ^ fp.length)
    else none

/-- Core of Python `float(...)` without the leading sign. -/
def pyFloatCore (cs : List Char) : Option Rat :=
  let (m, e?) := splitExp cs
  match mantissaVal m with
  | none => none
  | some mv =>
    match e? with
    | none => some mv
    | some ecs =>
      match pyInt (String.mk ecs) with
      | none => none
      | some ev =>
        some (if 0 ≤ ev then mv * (10 : Rat) ^ ev.toNat else mv / (10 : Rat) ^ (-ev).toNat)

/-- Python `float(token)`: optional sign, digits with optional decimal point
and optional exponent. -/
def pyFloat (s : String) : Option Rat :=
  match s.data with
  | '+' :: rest => pyFloatCore rest
  | '-' :: rest => (pyFloatCore rest).map Neg.neg
  | rest => pyFloatCore rest

/-- Source location of a line (`LineInfo` in `lib/structures.py`); the raw
line text is kept as its token list. -/
structure LineInfo where
  file_name : String
  line_no : Nat
  line : List String
deriving DecidableEq

/-- The payload stored in a `DbRecord`: Python stores either the whole line
(for header `REMARK`/`#` records) or a list of values. -/
inductive DbValues where
  | line (s : String)
  | fields (vs : List PyVal)
deriving DecidableEq

/-- One record of a gdb/tab file (`DbRecord` in `nmrpipe_lib.py`). -/
structure DbRecord where
  index : Nat
  type : String
  values : DbValues
  line_info : LineInfo
deriving DecidableEq

/-- A parsed gdb/tab document (`DbFile` in `nmrpipe_lib.py`). -/
structure DbFile where
  name : String
  records : List DbRecord
deriving DecidableEq

/-- The `BadNmrPipeFile` exception family raised by `read_db_file_records`.
Each constructor carries the data embedded in the exception message that the
claims talk about (1-based line number; for a data-row column-count error
also the column names, the human-readable format names, and the observed
fields padded with `*` placeholders). -/
inductive PipeError where
  | dataBeforeFormat (line_no : Nat)
  | noVarsLine (line_no : Nat)
  | multipleVars (line_no : Nat)
  | multipleFormat (line_no : Nat)
  | wrongColumnCountHeader (line_no : Nat) (num_names num_formats : Nat)
  | wrongColumnCount (line_no : Nat) (names : List String)
      (format_names : List String) (padded_fields : List String)
  | badFieldFormat (line_no : Nat) (column : Nat)
deriving DecidableEq

/-- Field-value converters produced from format codes (`d`→int, `f`/`e`→float,
`s`→str). -/
inductive Ctor where
  | int
  | float
  | str
deriving DecidableEq

/-- `_constructor_to_name` from the source. -/
def ctorName : Ctor → String
  | .int => "int"
  | .float => "float"
  | .str => "str"

/-- Apply a converter to a raw field, `none` on conversion failure. -/
def applyCtor : Ctor → String → Option PyVal
  | .int, s => (pyInt s).map PyVal.vInt
  | .float, s => (pyFloat s).map PyVal.vFloat
  | .str, s => some (PyVal.vStr s)

/-- Loop of `_formats_to_constructors`: maps each format code (all tokens
after the leading `FORMAT` keyword) to a converter by its last character;
any other last character raises `BadFieldFormat` with the 1-based column. -/
def formatsAux (li : LineInfo) : Nat → List String → Except PipeError (List Ctor)
  | _, [] => .ok []
  | i, f :: rest =>
    match f.data.getLast? with
    | none => .error (.badFieldFormat li.line_no (i + 1))
    | some c =>
      if c = 'd' then (formatsAux li (i + 1) rest).map (Ctor.int :: ·)
      else if c = 'f' then (formatsAux li (i + 1) rest).map (Ctor.float :: ·)
      else if c = 's' then (formatsAux li (i + 1) rest).map (Ctor.str :: ·)
      else if c = 'e' then (formatsAux li (i + 1) rest).map (Ctor.float :: ·)
      else .error (.badFieldFormat li.line_no (i + 1))

/-- `_formats_to_constructors` from the source (receives the full token list
of the FORMAT line and skips its keyword). -/
def _formats_to_constructors (toks : List String) (li : LineInfo) :
    Except PipeError (List Ctor) :=
  formatsAux li 0 (toks.drop 1)

/-- `_check_var_and_format_count_raise_if_bad` from the source. -/
def _check_var_and_format_count (names? : Option (List String))
    (formats : List Ctor) (li : LineInfo) : Except PipeError Unit :=
  match names? with
  | none => .error (.noVarsLine li.line_no)
  | some names =>
    if names.length = formats.length then .ok ()
    else .error (.wrongColumnCountHeader li.line_no names.length formats.length)

/-- `_check_column_count_raise_if_bad` from the source: the field count of the
raw line must equal the column count; on mismatch the error carries the
observed fields padded with `abs(num_fields - num_columns)` star placeholders. -/
def _check_column_count (formats : List Ctor) (names : List String)
    (li : LineInfo) : Except PipeError (List Ctor) :=
  let num_fields := li.line.length
  let num_columns := formats.length
  if num_fields = num_columns then .ok formats
  else
    .error (.wrongColumnCount li.line_no names (formats.map ctorName)
      (li.line ++ List.replicate ((num_fields : Int) - (num_columns : Int)).natAbs "*"))

/-- Conversion loop of `_build_values_or_raise`: applies each column's
converter; a failure raises `BadFieldFormat` with the 1-based column. -/
def convertAux (li : LineInfo) : Nat → List (String × Ctor) → Except PipeError (List PyVal)
  | _, [] => .ok []
  | colNo, (raw, ctor) :: rest =>
    match applyCtor ctor raw with
    | none => .error (.badFieldFormat li.line_no (colNo + 1))
    | some v => (convertAux li (colNo + 1) rest).map (v :: ·)

/-- `_build_values_or_raise` from the source. -/
def _build_values_or_raise (formats : List Ctor) (names : List String)
    (fields : List String) (li : LineInfo) : Except PipeError (List PyVal) :=
  match _check_column_count formats names li with
  | .error e => .error e
  | .ok fs => convertAux li 0 (fields.zip fs)

/-- The running per-type record counter (`Counter` in the source). -/
def cntInc (c : String → Nat) (k : String) : String → Nat :=
  fun t => if t = k then c t + 1 else c t

/-- `del record_count[k]`: a deleted key restarts from zero. -/
def cntDel (c : String → Nat) (k : String) : String → Nat :=
  fun t => if t = k then 0 else c t

/-- Parser state of `read_db_file_records` at the top of its line loop. -/
structure PState where
  records : List DbRecord
  column_names : Option (List String)
  column_formats : Option (List Ctor)
  counter : String → Nat
  in_header : Bool

/-- The line loop of `read_db_file_records`, one call per input line.
Follows the source statement by statement: blank lines are skipped; in header
mode `VARS` / `FORMAT` / `REMARK` / `#` / `DATA` are handled and anything else
raises `DataBeforeFormat`; once the header is closed a `VARS`/`FORMAT` raises
the `Multiple...` error, any other line becomes a `__VALUES__` record when the
schema is nonempty (Python truthiness of `column_names and column_formats`)
and a verbatim generic record otherwise. -/
def parseLines (name : String) : PState → Nat → List (List String) →
    Except PipeError (List DbRecord)
  | st, _, [] => .ok st.records
  | st, n, [] :: rest => parseLines name st (n + 1) rest
  | st, n, (record_type :: args) :: rest =>
    let toks := record_type :: args
    let li : LineInfo := ⟨name, n, toks⟩
    let cnt := cntInc st.counter record_type
    if st.in_header then
      if record_type = "VARS" then
        if cnt "VARS" = 1 then
          parseLines name { st with
            records := st.records ++ [⟨cnt "VARS", "VARS", .fields (args.map PyVal.vStr), li⟩],
            column_names := some args, counter := cnt } (n + 1) rest
        else .error (.multipleVars n)
      else if record_type = "FORMAT" then
        match _formats_to_constructors toks li with
        | .error e => .error e
        | .ok formats =>
          match _check_var_and_format_count st.column_names formats li with
          | .error e => .error e
          | .ok _ =>
            parseLines name { st with
              records := st.records ++ [⟨cnt "FORMAT", "FORMAT", .fields (args.map PyVal.vStr), li⟩],
              column_formats := some formats, counter := cnt, in_header := false } (n + 1) rest
      else if record_type = "REMARK" ∨ record_type = "#" then
        parseLines name { st with
          records := st.records ++ [⟨cnt record_type, record_type, .line (String.intercalate " " toks), li⟩],
          counter := cnt } (n + 1) rest
      else if record_type = "DATA" then
        parseLines name { st with
          records := st.records ++ [⟨cnt "DATA", "DATA", .fields (args.map PyVal.vStr), li⟩],
          counter := cnt } (n + 1) rest
      else .error (.dataBeforeFormat n)
    else
      if record_type = "VARS" then .error (.multipleVars n)
      else if record_type = "FORMAT" then .error (.multipleFormat n)
      else
        match st.column_names, st.column_formats with
        | some (nm :: nms), some (fm :: fms) =>
          let cnt2 := cntDel (cntInc cnt "__VALUES__") record_type
          match _build_values_or_raise (fm :: fms) (nm :: nms) toks li with
          | .error e => .error e
          | .ok values =>
            parseLines name { st with
              records := st.records ++ [⟨cnt2 "__VALUES__", "__VALUES__", .fields values, li⟩],
              counter := cnt2 } (n + 1) rest
        | _, _ =>
          parseLines name { st with
            records := st.records ++ [⟨cnt record_type, record_type, .fields (args.map PyVal.vStr), li⟩],
            counter := cnt } (n + 1) rest

/-- The initial parser state. -/
def initPState : PState :=
  ⟨[], none, none, fun _ => 0, true⟩

/-- `read_db_file_records` from the source. -/
def read_db_file_records (lines : List (List String)) (file_name : String) :
    Except PipeError DbFile :=
  (parseLines file_name initPState 1 lines).map (DbFile.mk file_name)

/-- Python runtime exceptions that the domain extractors can raise. -/
inductive PyErr where
  | keyError
  | indexError
  | zeroDivisionError
  | typeError
  | attributeError
deriving DecidableEq

/-- `select_records` from the source (no predicate argument is used by the
claimed code paths). -/
def select_records (gdb : DbFile) (record_type : String) : List DbRecord :=
  gdb.records.filter (fun r => r.type = record_type)

/-- View record values the way Python iterates/subscripts them: a stored
line string yields its characters as one-character strings. -/
def DbValues.toPyList : DbValues → List PyVal
  | .fields vs => vs
  | .line s => s.data.map (fun c => PyVal.vStr (String.mk [c]))

/-- `get_gdb_columns` from the source: the values of the first `VARS` record;
`IndexError` when there is none. -/
def get_gdb_columns (gdb : DbFile) : Except PyErr (List PyVal) :=
  match (select_records gdb "VARS").head? with
  | none => .error .indexError
  | some r => .ok r.values.toPyList

/-- Numeric view of a value (`int` and `float` compare and mix in Python). -/
def toRat? : PyVal → Option Rat
  | .vInt n => some (n : Rat)
  | .vFloat q => some q
  | _ => none

/-- Python `==` on the values at hand (ints and floats compare numerically). -/
def pyEq : PyVal → PyVal → Bool
  | .vStr a, .vStr b => a == b
  | .vNone, .vNone => true
  | a, b =>
    match toRat? a, toRat? b with
    | some x, some y => decide (x = y)
    | _, _ => false

/-- `get_column_indices` from the source as a lookup: the dict comprehension
`{column: index}` keeps the LAST index of a duplicated column name. -/
def column_indices (cols : List PyVal) (key : PyVal) : Option Nat :=
  ((cols.enum.filter (fun p => pyEq p.2 key)).getLast?).map (fun p => p.1)

/-- Dict subscript `column_indices[key]`: `KeyError` when absent. -/
def lookupKey (cols : List PyVal) (key : String) : Except PyErr Nat :=
  match column_indices cols (.vStr key) with
  | none => .error .keyError
  | some i => .ok i

/-- List subscript `values[i]`: `IndexError` when out of range. -/
def getIdx (vs : List PyVal) (i : Nat) : Except PyErr PyVal :=
  match vs.get? i with
  | none => .error .indexError
  | some v => .ok v

/-- Python `+` on record values (numeric only, as used by `sum`). -/
def pyAdd : PyVal → PyVal → Except PyErr PyVal
  | .vInt a, .vInt b => .ok (.vInt (a + b))
  | a, b =>
    match toRat? a, toRat? b with
    | some x, some y => .ok (.vFloat (x + y))
    | _, _ => .error .typeError

/-- Python `*` on record values (numeric only, as used here). -/
def pyMul : PyVal → PyVal → Except PyErr PyVal
  | .vInt a, .vInt b => .ok (.vInt (a * b))
  | a, b =>
    match toRat? a, toRat? b with
    | some x, some y => .ok (.vFloat (x * y))
    | _, _ => .error .typeError

/-- Python `/` (true division): `ZeroDivisionError` on a zero denominator. -/
def pyDiv (a b : PyVal) : Except PyErr PyVal :=
  match toRat? a, toRat? b with
  | some x, some y => if y = 0 then .error .zeroDivisionError else .ok (.vFloat (x / y))
  | _, _ => .error .typeError

/-- `sum(values)` (starts from the int `0`). -/
def sumAux : List PyVal → PyVal → Except PyErr PyVal
  | [], acc => .ok acc
  | v :: rest, acc => do
    let acc' ← pyAdd acc v
    sumAux rest acc'

/-- `_mean` from the source: `sum(values) / len(values)` — dividing by zero
(the empty list) raises `ZeroDivisionError`. -/
def _mean (values : List PyVal) : Except PyErr PyVal := do
  let s ← sumAux values (.vInt 0)
  pyDiv s (.vInt values.length)

/-- The comprehension `[_mean(f) for f in frequencies]`. -/
def meanAll : List (List PyVal) → Except PyErr (List PyVal)
  | [] => .ok []
  | f :: rest => do
    let m ← _mean f
    let ms ← meanAll rest
    return m :: ms

/-- Python `str.split(sep)` for a one-character separator, on char lists. -/
def splitChar (c : Char) (cs : List Char) : List (List Char) :=
  cs.foldr
    (fun x acc =>
      match acc with
      | [] => [[x]]
      | h :: t => if x = c then [] :: h :: t else (x :: h) :: t)
    [[]]

/-- Python `str.split(sep)` for a one-character separator. -/
def strSplit (s : String) (c : Char) : List String :=
  (splitChar c s.data).map (fun cs => String.mk cs)

/-- Python `str.endswith(sfx)`. -/
def strEndsWith (s sfx : String) : Bool :=
  sfx.data.length ≤ s.data.length &&
    s.data.drop (s.data.length - sfx.data.length) == sfx.data

/-- Loop of `_get_axis_labels`: collect `var.split('_')[0]` for every column
ending in `_AXIS`; `var.endswith` on a non-string raises `AttributeError`. -/
def axisLabelsAux : List PyVal → Except PyErr (List String)
  | [] => .ok []
  | v :: rest =>
    match v with
    | .vStr s => do
      let r ← axisLabelsAux rest
      if strEndsWith s "_AXIS" then
        return ((strSplit s '_').headD "") :: r
      else
        return r
    | _ => .error .attributeError

/-- `_get_axis_labels` from the source. -/
def _get_axis_labels (gdb : DbFile) : Except PyErr (List String) := do
  let columns ← get_gdb_columns gdb
  axisLabelsAux columns

/-- `_get_peak_list_dimension` from the source. -/
def _get_peak_list_dimension (gdb : DbFile) : Except PyErr Nat := do
  let labels ← _get_axis_labels gdb
  return labels.length

/-- `AtomLabel` (flat, as in `src/lib/structures.py` and the spec data model);
the nested `AtomLabel(SequenceResidue(chain, seq, res), atom)` calls in
`nmrpipe_lib.py` are embedded by flattening the residue into these fields.
Fields hold `PyVal` because the Python code stores record values of any type
in them. -/
structure AtomLabel where
  chain_code : PyVal
  sequence_code : PyVal
  residue_name : PyVal
  atom_name : PyVal
deriving DecidableEq

/-- `PeakAxis` as constructed by `read_peak_file` (one atom label, a ppm
shift and a constant merit). -/
structure PeakAxis where
  atom_labels : AtomLabel
  ppm : PyVal
  merit : PyVal
deriving DecidableEq

/-- `PeakValues` with the field names used by the constructor call in
`read_peak_file` (`serial`, `volume`, `height`, `deleted`, `comment`). -/
structure PeakValues where
  serial : Nat
  volume : PyVal
  height : PyVal
  deleted : Bool
  comment : String
deriving DecidableEq

/-- Keys of the per-peak dict: the axis index `i` or the literal `"values"`. -/
inductive PeakKey where
  | axis (i : Nat)
  | values
deriving DecidableEq

/-- Entries of the per-peak dict. -/
inductive PeakEntry where
  | axis (a : PeakAxis)
  | values (v : PeakValues)
deriving DecidableEq

/-- A peak: the dict built by `read_peak_file`, in insertion order. -/
abbrev Peak := List (PeakKey × PeakEntry)

/-- `PeakListData` as constructed by `read_peak_file` (`data_set` and
`sweep_widths` are passed as `None`). -/
structure PeakListData where
  num_axis : Nat
  axis_labels : List String
  data_set : PyVal
  sweep_widths : PyVal
  spectrometer_frequencies : List PyVal
deriving DecidableEq

/-- `PeakList` from `lib/structures.py`. -/
structure PeakList where
  peak_list_data : PeakListData
  peaks : List Peak
deriving DecidableEq

/-- The one attribute of the argparse `Namespace` that `read_peak_file`
reads. -/
structure Args where
  filter_noise : Bool
deriving DecidableEq

/-- Python `peak_type != PEAK_TYPES.PEAK` where `PEAK_TYPES.PEAK` is the
`IntEnum` value 1 (ints and floats compare numerically to it, anything else
is unequal). -/
def pyNe1 : PyVal → Bool
  | .vInt n => decide (n ≠ 1)
  | .vFloat q => decide (q ≠ 1)
  | .vStr _ => true
  | .vNone => true

/-- `re.split(r'(\d+)', s)` step for `foldr`: chunks are built right to left,
the Bool records whether the leftmost chunk so far is a digit run. -/
def sdStep (c : Char) : Bool × List (List Char) → Bool × List (List Char)
  | (isD, chunks) =>
    match chunks with
    | [] => (c.isDigit, [[c]])
    | h :: t =>
      if c.isDigit then
        if isD then (true, (c :: h) :: t) else (true, [c] :: h :: t)
      else
        if isD then (false, [c] :: h :: t) else (false, (c :: h) :: t)

/-- `re.split(r'(\d+)', s)`: alternating (possibly empty) non-digit chunks
and (nonempty) captured digit runs, starting and ending with a non-digit
chunk. -/
def splitDigits (s : String) : List String :=
  let (isD, chunks) := s.data.foldr sdStep (false, [[]])
  (if isD then [] :: chunks else chunks).map (fun cs => String.mk cs)

/-- Loop of `_propagate_assignments` with the running `current` residue. -/
def propagateAux (current : List String) : List String → List (List String)
  | [] => []
  | a :: rest =>
    let fields := splitDigits a
    if fields.length = 3 then fields :: propagateAux (fields.take 2) rest
    else if fields.length = 1 then (current ++ fields) :: propagateAux current rest
    else fields :: propagateAux current rest

/-- `_propagate_assignments` from the source. -/
def _propagate_assignments (assignments : List String) : List (List String) :=
  propagateAux [] assignments

/-- The `current` residue pair held by `_propagate_assignments` after
consuming a list of assignment tokens. -/
def propCurrentAux (current : List String) : List String → List String
  | [] => current
  | a :: rest =>
    let fields := splitDigits a
    if fields.length = 3 then propCurrentAux (fields.take 2) rest
    else propCurrentAux current rest

/-- The `current` residue pair after a whole token list, starting empty. -/
def propCurrent (assignments : List String) : List String :=
  propCurrentAux [] assignments

/-- Modelled from the spec: `lib.sequence_lib.TRANSLATIONS_1_3` is not in
`src/`; the spec describes it as the 1-letter → 3-letter residue-code
translation table. -/
def TRANSLATIONS_1_3 : List (Char × String) :=
  [('A', "ALA"), ('C', "CYS"), ('D', "ASP"), ('E', "GLU"), ('F', "PHE"),
   ('G', "GLY"), ('H', "HIS"), ('I', "ILE"), ('K', "LYS"), ('L', "LEU"),
   ('M', "MET"), ('N', "ASN"), ('P', "PRO"), ('Q', "GLN"), ('R', "ARG"),
   ('S', "SER"), ('T', "THR"), ('V', "VAL"), ('W', "TRP"), ('Y', "TYR")]

/-- Modelled from the spec: `lib.sequence_lib.translate_1_to_3` is not in
`src/`; per the spec it translates each 1-letter code via the injected table,
unknown codes mapping to the caller-supplied placeholder. -/
def translate_1_to_3 (s : String) (unknown : String) : List String :=
  s.data.map (fun c => (TRANSLATIONS_1_3.lookup c).getD unknown)

/-- Modelled from the spec: `lib.util.is_int` is not in `src/`; it tests
whether Python `int(s)` succeeds. -/
def is_int (s : String) : Bool :=
  (pyInt s).isSome

/-- Body of the `_assignments_to_atom_labels` loop for one assignment. -/
def assignmentLabel (chain_code : String) (a : List String) : Except PyErr AtomLabel := do
  let residue_name ← match a.head? with
    | none => Except.ok PyVal.vNone
    | some a0 =>
      match (translate_1_to_3 a0 ".").head? with
      | none => Except.error PyErr.indexError
      | some r => Except.ok (PyVal.vStr r)
  let sequence_code := match a.get? 1 with
    | none => PyVal.vNone
    | some raw =>
      if is_int raw then
        match pyInt raw with
        | some n => PyVal.vInt n
        | none => PyVal.vNone
      else PyVal.vNone
  let atom_name := match a.get? 2 with
    | none => PyVal.vNone
    | some s => PyVal.vStr s
  return ⟨PyVal.vStr chain_code, sequence_code, residue_name, atom_name⟩

/-- The label-building loop of `_assignments_to_atom_labels`. -/
def labelsAux (chain : String) : List (List String) → Except PyErr (List AtomLabel)
  | [] => .ok []
  | a :: rest => do
    let l ← assignmentLabel chain a
    let ls ← labelsAux chain rest
    return l :: ls

/-- `_assignments_to_atom_labels` from the source.  When fewer labels than
`dimensions` were built, the source runs `for i in (len_result - dimensions)`
— iterating an int — so Python raises `TypeError` instead of padding. -/
def _assignments_to_atom_labels (assignments : List (List String))
    (dimensions : Nat) (chain_code : String) : Except PyErr (List AtomLabel) := do
  let result ← labelsAux chain_code assignments
  if result.length < dimensions then
    Except.error PyErr.typeError
  else
    return result

/-- List subscript on any element type (`IndexError` when out of range). -/
def getIdxG {α : Type} (xs : List α) (i : Nat) : Except PyErr α :=
  match xs.get? i with
  | none => .error .indexError
  | some v => .ok v

/-- Attribute access `.split` needs a string (`AttributeError` otherwise). -/
def pyStrOf : PyVal → Except PyErr String
  | .vStr s => .ok s
  | _ => .error .attributeError

/-- The inner per-dimension loop of `read_peak_file`, over the enumerated
dimension letters `'X Y Z A'.split()[:dimensions]`; returns the axis entries
of the peak dict and the updated per-axis spectrometer-frequency lists. -/
def axisLoop (cols : List PyVal) (vals : List PyVal) (labels : List AtomLabel) :
    List (Nat × String) → List (List PyVal) →
    Except PyErr (List (PeakKey × PeakEntry) × List (List PyVal))
  | [], freqs => .ok ([], freqs)
  | (i, dim) :: rest, freqs => do
    let sIdx ← lookupKey cols (dim ++ "_PPM")
    let shift ← getIdx vals sIdx
    let peIdx ← lookupKey cols ("D" ++ dim)
    let point_error ← getIdx vals peIdx
    let pIdx ← lookupKey cols (dim ++ "_AXIS")
    let point ← getIdx vals pIdx
    let rel ← pyDiv point_error point
    let _shift_error ← pyMul rel shift
    let hzIdx ← lookupKey cols (dim ++ "_HZ")
    let pos_hz ← getIdx vals hzIdx
    let label ← getIdxG labels i
    let ax : PeakAxis := ⟨label, shift, .vInt 1⟩
    let sf ← pyDiv pos_hz shift
    let freqs' := freqs.set i ((freqs.getD i []) ++ [sf])
    let (restEntries, freqs'') ← axisLoop cols vals labels rest freqs'
    return ((PeakKey.axis i, PeakEntry.axis ax) :: restEntries, freqs'')

/-- One iteration of the `read_peak_file` row loop.  The source appends the
(still empty) peak dict to `raw_peaks` BEFORE the noise filter, so a skipped
row contributes an empty peak; a kept row's dict gets its `"values"` entry and
then one axis entry per enumerated dimension letter. -/
def peakStep (cols : List PyVal) (dims : Nat) (args : Args) (serial : Nat)
    (acc : List Peak × List (List PyVal)) (line : DbRecord) :
    Except PyErr (List Peak × List (List PyVal)) := do
  let vals := line.values.toPyList
  let tIdx ← lookupKey cols "TYPE"
  let peak_type ← getIdx vals tIdx
  if args.filter_noise && pyNe1 peak_type then
    return (acc.1 ++ [([] : Peak)], acc.2)
  else
    let aIdx ← lookupKey cols "ASS"
    let assignment ← getIdx vals aIdx
    let assignmentStr ← pyStrOf assignment
    let assignments := _propagate_assignments (strSplit assignmentStr '-')
    let labels ← _assignments_to_atom_labels assignments dims "A"
    let hIdx ← lookupKey cols "HEIGHT"
    let height ← getIdx vals hIdx
    let dhIdx ← lookupKey cols "DHEIGHT"
    let height_error ← getIdx vals dhIdx
    let hpe ← pyDiv height_error height
    let vIdx ← lookupKey cols "VOL"
    let volume ← getIdx vals vIdx
    let _volume_error ← pyMul volume hpe
    let peak_values : PeakValues := ⟨serial, volume, height, false, ""⟩
    let dimNames := (List.take dims ["X", "Y", "Z", "A"]).enum
    let (axEntries, freqs') ← axisLoop cols vals labels dimNames acc.2
    return (acc.1 ++ [(PeakKey.values, PeakEntry.values peak_values) :: axEntries], freqs')

/-- The `enumerate(data, start=1)` row loop of `read_peak_file`. -/
def peakFold (cols : List PyVal) (dims : Nat) (args : Args) :
    Nat → (List Peak × List (List PyVal)) → List DbRecord →
    Except PyErr (List Peak × List (List PyVal))
  | _, acc, [] => .ok acc
  | serial, acc, line :: rest => do
    let acc' ← peakStep cols dims args serial acc line
    peakFold cols dims args (serial + 1) acc' rest

/-- `read_peak_file` from the source. -/
def read_peak_file (gdb : DbFile) (args : Args) : Except PyErr PeakList := do
  let data := select_records gdb "__VALUES__"
  let dimensions ← _get_peak_list_dimension gdb
  let cols ← get_gdb_columns gdb
  let axis_labels ← _get_axis_labels gdb
  let (raw_peaks, freqs) ← peakFold cols dimensions args 1 ([], List.replicate dimensions []) data
  let sfs ← meanAll freqs
  return ⟨⟨dimensions, axis_labels, .vNone, .vNone, sfs⟩, raw_peaks⟩

/-- `ShiftData` from `lib/structures.py` (`error` defaults to `None`). -/
structure ShiftData where
  atom : AtomLabel
  shift : PyVal
  error : PyVal
deriving DecidableEq

/-- `ShiftList` from `lib/structures.py`. -/
structure ShiftList where
  shifts : List ShiftData
deriving DecidableEq

/-- The row loop of `read_shift_file`. -/
def shiftsAux (cols : List PyVal) (chain : String) :
    List DbRecord → Except PyErr (List ShiftData)
  | [] => .ok []
  | line :: rest => do
    let vals := line.values.toPyList
    let anIdx ← lookupKey cols "ATOMNAME"
    let atom_name ← getIdx vals anIdx
    let rnIdx ← lookupKey cols "RESID"
    let residue_number ← getIdx vals rnIdx
    let rtIdx ← lookupKey cols "RESNAME"
    let residue_type ← getIdx vals rtIdx
    let sIdx ← lookupKey cols "SHIFT"
    let shift ← getIdx vals sIdx
    let rest' ← shiftsAux cols chain rest
    return ⟨⟨.vStr chain, residue_number, residue_type, atom_name⟩, shift, .vNone⟩ :: rest'

/-- `read_shift_file` from the source. -/
def read_shift_file (gdb : DbFile) (chain_code : String) : Except PyErr ShiftList := do
  let data := select_records gdb "__VALUES__"
  let cols ← get_gdb_columns gdb
  let shifts ← shiftsAux cols chain_code data
  return ⟨shifts⟩

/-- Number of `PeakAxis` entries in a peak dict. -/
def axCount : Peak → Nat
  | [] => 0
  | (_, PeakEntry.axis _) :: rest => axCount rest + 1
  | _ :: rest => axCount rest

/-- Number of `PeakValues` entries in a peak dict. -/
def valCount : Peak → Nat
  | [] => 0
  | (_, PeakEntry.values _) :: rest => valCount rest + 1
  | _ :: rest => valCount rest

/-- Number of `VARS` lines among a list of tokenized lines. -/
def countVars (rows : List (List String)) : Nat :=
  (rows.filter (fun r => r.head? == some "VARS")).length

/-! ## Lemmas about the assignment parser -/

attribute [local semireducible] Rat.mul Rat.add Rat.inv Rat.ofScientific Rat.sub

theorem propCurrentAux_append (c : List String) (xs : List String) (a : String) :
    propCurrentAux c (xs ++ [a]) =
      (if (splitDigits a).length = 3 then (splitDigits a).take 2 else propCurrentAux c xs) := by
  induction xs generalizing c with
  | nil => simp [propCurrentAux]
  | cons x xs ih =>
    by_cases h3 : (splitDigits x).length = 3 <;>
      simp [propCurrentAux, h3, ih]

theorem propagateAux_append (c : List String) (xs : List String) (a : String) :
    propagateAux c (xs ++ [a]) =
      propagateAux c xs ++
        [if (splitDigits a).length = 3 then splitDigits a
         else if (splitDigits a).length = 1 then propCurrentAux c xs ++ splitDigits a
         else splitDigits a] := by
  induction xs generalizing c with
  | nil =>
    by_cases h3 : (splitDigits a).length = 3
    · simp [propagateAux, propCurrentAux, h3]
    · by_cases h1 : (splitDigits a).length = 1 <;>
        simp [propagateAux, propCurrentAux, h3, h1]
  | cons x xs ih =>
    by_cases h3 : (splitDigits x).length = 3
    · simp [propagateAux, propCurrentAux, h3, ih]
    · by_cases h1 : (splitDigits x).length = 1 <;>
        simp [propagateAux, propCurrentAux, h3, h1, ih]

/-! ## Lemmas about the header state machine -/

theorem countVars_nil_head : countVars ([] :: pre) = countVars pre := by
  simp [countVars]

theorem countVars_cons_vars (args : List String) (pre : List (List String)) :
    countVars (("VARS" :: args) :: pre) = countVars pre + 1 := by
  simp [countVars]

theorem countVars_cons_other (t : String) (args : List String) (pre : List (List String))
    (h : t ≠ "VARS") : countVars ((t :: args) :: pre) = countVars pre := by
  simp [countVars, h]

/-- One parser step on a header-benign line: a first `VARS`, a `REMARK`, a
`#` or a `DATA` line keeps the parser in header mode, increments that
keyword's counter, and (except for `VARS`) leaves the column names alone. -/
theorem parseLines_benign_step (name : String) (st : PState) (n : Nat) (t : String)
    (args : List String) (rest : List (List String))
    (hin : st.in_header = true)
    (ht : (t = "VARS" ∧ st.counter "VARS" = 0) ∨ t = "REMARK" ∨ t = "#" ∨ t = "DATA") :
    ∃ st1, parseLines name st n ((t :: args) :: rest) = parseLines name st1 (n + 1) rest
      ∧ st1.in_header = true
      ∧ st1.counter = cntInc st.counter t
      ∧ (t ≠ "VARS" → st1.column_names = st.column_names) := by
  rcases ht with ⟨hv, h0⟩ | h | h | h
  · subst hv
    refine ⟨{ st with
        records := st.records ++ [⟨1, "VARS", .fields (args.map PyVal.vStr),
          ⟨name, n, "VARS" :: args⟩⟩],
        column_names := some args, counter := cntInc st.counter "VARS" },
      ?_, hin, rfl, fun hne => absurd rfl hne⟩
    simp [parseLines, hin, cntInc, h0]
  · subst h
    exact ⟨{ st with
        records := st.records ++ [⟨cntInc st.counter "REMARK" "REMARK", "REMARK",
          .line (String.intercalate " " ("REMARK" :: args)), ⟨name, n, "REMARK" :: args⟩⟩],
        counter := cntInc st.counter "REMARK" },
      by simp [parseLines, hin], hin, rfl, fun _ => rfl⟩
  · subst h
    exact ⟨{ st with
        records := st.records ++ [⟨cntInc st.counter "#" "#", "#",
          .line (String.intercalate " " ("#" :: args)), ⟨name, n, "#" :: args⟩⟩],
        counter := cntInc st.counter "#" },
      by simp [parseLines, hin], hin, rfl, fun _ => rfl⟩
  · subst h
    exact ⟨{ st with
        records := st.records ++ [⟨cntInc st.counter "DATA" "DATA", "DATA",
          .fields (args.map PyVal.vStr), ⟨name, n, "DATA" :: args⟩⟩],
        counter := cntInc st.counter "DATA" },
      by simp [parseLines, hin], hin, rfl, fun _ => rfl⟩

/-- Running the parser over a header-benign line list (only `VARS`, `REMARK`,
`#`, `DATA` keywords, with at most one `VARS` counting the state's counter)
stays in header mode and, when no `VARS` occurs, preserves the column names. -/
theorem parse_header_benign (name : String) (pre : List (List String)) :
    ∀ (st : PState) (n : Nat) (rest : List (List String)),
    st.in_header = true →
    (∀ r ∈ pre, ∀ t, r.head? = some t → t = "VARS" ∨ t = "REMARK" ∨ t = "#" ∨ t = "DATA") →
    st.counter "VARS" + countVars pre ≤ 1 →
    ∃ st2, parseLines name st n (pre ++ rest) = parseLines name st2 (n + pre.length) rest
      ∧ st2.in_header = true
      ∧ (countVars pre = 0 → st2.column_names = st.column_names) := by
  induction pre with
  | nil =>
    intro st n rest hin _ _
    exact ⟨st, by simp, hin, fun _ => rfl⟩
  | cons row pre ih =>
    intro st n rest hin hpre hcnt
    match row with
    | [] =>
      rw [countVars_nil_head] at hcnt
      obtain ⟨st2, heq, h1, h2⟩ :=
        ih st (n + 1) rest hin (fun r hr => hpre r (List.mem_cons_of_mem _ hr)) hcnt
      refine ⟨st2, ?_, h1, fun h0 => h2 (by rwa [countVars_nil_head] at h0)⟩
      rw [List.cons_append]
      show parseLines name st n ([] :: (pre ++ rest)) = _
      rw [show parseLines name st n ([] :: (pre ++ rest)) =
        parseLines name st (n + 1) (pre ++ rest) from by simp [parseLines]]
      rw [heq]
      congr 1
      simp
      omega
    | t :: args =>
      have ht := hpre (t :: args) (List.mem_cons_self _ _) t rfl
      have hstep : (t = "VARS" ∧ st.counter "VARS" = 0) ∨ t = "REMARK" ∨ t = "#" ∨ t = "DATA" := by
        rcases ht with h | h | h | h
        · subst h
          rw [countVars_cons_vars] at hcnt
          exact Or.inl ⟨rfl, by omega⟩
        · exact Or.inr (Or.inl h)
        · exact Or.inr (Or.inr (Or.inl h))
        · exact Or.inr (Or.inr (Or.inr h))
      obtain ⟨st1, hstep_eq, hin1, hcnt1, hnames1⟩ :=
        parseLines_benign_step name st n t args (pre ++ rest) hin hstep
      have hcnt' : st1.counter "VARS" + countVars pre ≤ 1 := by
        rw [hcnt1]
        by_cases hv : t = "VARS"
        · subst hv
          rw [countVars_cons_vars] at hcnt
          simp [cntInc]
          omega
        · rw [countVars_cons_other t args pre hv] at hcnt
          simpa [cntInc, Ne.symm hv] using hcnt
      obtain ⟨st2, heq, h1, h2⟩ :=
        ih st1 (n + 1) rest hin1 (fun r hr => hpre r (List.mem_cons_of_mem _ hr)) hcnt'
      refine ⟨st2, ?_, h1, ?_⟩
      · rw [List.cons_append, hstep_eq, heq]
        congr 1
        simp
        omega
      · intro h0
        by_cases hv : t = "VARS"
        · subst hv
          rw [countVars_cons_vars] at h0
          omega
        · rw [countVars_cons_other t args pre hv] at h0
          rw [h2 h0, hnames1 hv]

/-- A line whose leading keyword is none of the five header keywords, seen in
header mode, raises `DataBeforeFormat` with its own line number. -/
theorem parseLines_step_dataBeforeFormat (name : String) (st : PState) (n : Nat)
    (t : String) (args : List String) (rest : List (List String))
    (hin : st.in_header = true)
    (h1 : t ≠ "VARS") (h2 : t ≠ "FORMAT") (h3 : t ≠ "REMARK") (h4 : t ≠ "#")
    (h5 : t ≠ "DATA") :
    parseLines name st n ((t :: args) :: rest) = .error (.dataBeforeFormat n) := by
  simp [parseLines, hin, h1, h2, h3, h4, h5]

/-- Every list of format codes whose last characters are all in
`{d, f, s, e}` resolves to constructors. -/
theorem formatsAux_ok (li : LineInfo) (codes : List String)
    (h : ∀ c ∈ codes, ∃ ch, c.data.getLast? = some ch ∧
      (ch = 'd' ∨ ch = 'f' ∨ ch = 's' ∨ ch = 'e')) :
    ∀ i, ∃ cs, formatsAux li i codes = .ok cs := by
  induction codes with
  | nil => intro i; exact ⟨[], rfl⟩
  | cons c codes ih =>
    intro i
    obtain ⟨ch, hch, hvalid⟩ := h c (List.mem_cons_self _ _)
    obtain ⟨cs, hcs⟩ := ih (fun c' hc' => h c' (List.mem_cons_of_mem _ hc')) (i + 1)
    rcases hvalid with h' | h' | h' | h' <;> subst h'
    · exact ⟨Ctor.int :: cs, by simp [formatsAux, hch, hcs, Except.map]⟩
    · exact ⟨Ctor.float :: cs, by simp [formatsAux, hch, hcs, Except.map]⟩
    · exact ⟨Ctor.str :: cs, by simp [formatsAux, hch, hcs, Except.map]⟩
    · exact ⟨Ctor.float :: cs, by simp [formatsAux, hch, hcs, Except.map]⟩

/-- A resolvable `FORMAT` line seen in header mode with no column names
recorded raises `NoVarsLine` with its own line number. -/
theorem parseLines_step_noVars (name : String) (st : PState) (n : Nat)
    (codes : List String) (rest : List (List String))
    (hin : st.in_header = true) (hnames : st.column_names = none)
    (hcodes : ∀ c ∈ codes, ∃ ch, c.data.getLast? = some ch ∧
      (ch = 'd' ∨ ch = 'f' ∨ ch = 's' ∨ ch = 'e')) :
    parseLines name st n (("FORMAT" :: codes) :: rest) = .error (.noVarsLine n) := by
  obtain ⟨cs, hcs⟩ := formatsAux_ok ⟨name, n, "FORMAT" :: codes⟩ codes hcodes 0
  have hfmt : _formats_to_constructors ("FORMAT" :: codes) ⟨name, n, "FORMAT" :: codes⟩ =
      .ok cs := by
    unfold _formats_to_constructors
    simpa using hcs
  simp [parseLines, hin, hfmt, _check_var_and_format_count, hnames]

/-- No `VARS` head means a zero `VARS` count. -/
theorem countVars_eq_zero (pre : List (List String))
    (h : ∀ r ∈ pre, ∀ t, r.head? = some t → t ≠ "VARS") : countVars pre = 0 := by
  induction pre with
  | nil => rfl
  | cons row pre ih =>
    match row with
    | [] =>
      rw [countVars_nil_head]
      exact ih (fun r hr => h r (List.mem_cons_of_mem _ hr))
    | t :: args =>
      rw [countVars_cons_other t args pre (h (t :: args) (List.mem_cons_self _ _) t rfl)]
      exact ih (fun r hr => h r (List.mem_cons_of_mem _ hr))

/-! ## Claim theorems: scenarios and the assignment parser -/

/-- C2: parsing the document `VARS RESID RESNAME ATOMNAME SHIFT` /
`FORMAT %5d %6s %6s %9.3f` / `1 ALA H 8.234` and extracting shifts with chain
code `"A"` yields exactly one `ShiftData` with atom
`AtomLabel("A", 1, "ALA", "H")`, shift `8.234` and error `None`. -/
theorem C2_shift_list_scenario :
    (read_db_file_records
        [["VARS", "RESID", "RESNAME", "ATOMNAME", "SHIFT"],
         ["FORMAT", "%5d", "%6s", "%6s", "%9.3f"],
         ["1", "ALA", "H", "8.234"]] "f").toOption.map
      (fun g => read_shift_file g "A") =
    some (.ok ⟨[⟨⟨.vStr "A", .vInt 1, .vStr "ALA", .vStr "H"⟩,
                 .vFloat 8.234, .vNone⟩]⟩) := by
  decide

/-- C6: whenever a data row's field count differs from the accepted schema's
column count, `_build_values_or_raise` fails with `WrongColumnCount`, and the
`*` placeholders appended to the observed fields number exactly the absolute
difference of the two counts. -/
theorem C6_wrong_column_count (formats : List Ctor) (names fields : List String)
    (li : LineInfo) (h : li.line.length ≠ formats.length) :
    _build_values_or_raise formats names fields li =
      .error (.wrongColumnCount li.line_no names (formats.map ctorName)
        (li.line ++
          List.replicate ((li.line.length : Int) - (formats.length : Int)).natAbs "*")) := by
  unfold _build_values_or_raise _check_column_count
  simp [h]

/-- C6 witness: a 3-column schema against a 1-field row produces the
`WrongColumnCount` error with exactly 2 placeholders. -/
theorem C6_wrong_column_count_witness :
    _build_values_or_raise [Ctor.int, Ctor.float, Ctor.str] ["A", "B", "C"] ["7"]
        ⟨"f", 5, ["7"]⟩ =
      .error (.wrongColumnCount 5 ["A", "B", "C"] ["int", "float", "str"] ["7", "*", "*"]) := by
  have h := C6_wrong_column_count [Ctor.int, Ctor.float, Ctor.str] ["A", "B", "C"] ["7"]
    ⟨"f", 5, ["7"]⟩ (by decide)
  exact h.trans (by decide)

/-- C7: a token splitting into letters, digits and a remainder sets the
current residue to its first two pieces; a token with no digits (a single
piece) inherits the most recently seen residue pair; in particular
`["A2CA", "CB"]` yields atom labels `(A, 2, ALA, CA)` and `(A, 2, ALA, CB)`
(the residue letter `A` translating to `ALA`). -/
theorem C7_assignment_propagation :
    (∀ (pre : List String) (a : String), (splitDigits a).length = 3 →
        propCurrent (pre ++ [a]) = (splitDigits a).take 2)
    ∧ (∀ (pre : List String) (a : String), (splitDigits a).length = 1 →
        _propagate_assignments (pre ++ [a]) =
          _propagate_assignments pre ++ [propCurrent pre ++ splitDigits a])
    ∧ _assignments_to_atom_labels (_propagate_assignments ["A2CA", "CB"]) 2 "A" =
        .ok [⟨.vStr "A", .vInt 2, .vStr "ALA", .vStr "CA"⟩,
             ⟨.vStr "A", .vInt 2, .vStr "ALA", .vStr "CB"⟩] := by
  refine ⟨?_, ?_, by decide⟩
  · intro pre a h3
    unfold propCurrent
    rw [propCurrentAux_append, if_pos h3]
  · intro pre a h1
    unfold _propagate_assignments propCurrent
    rw [propagateAux_append]
    have h3 : ¬ (splitDigits a).length = 3 := by omega
    rw [if_neg h3, if_pos h1]

/-- C7 witness: instantiating the propagation law at `["A2CA"]` and `"CB"`. -/
theorem C7_assignment_propagation_witness :
    (splitDigits "CB").length = 1
    ∧ _propagate_assignments ["A2CA", "CB"] =
        _propagate_assignments ["A2CA"] ++ [propCurrent ["A2CA"] ++ splitDigits "CB"] :=
  ⟨by decide, C7_assignment_propagation.2.1 ["A2CA"] "CB" (by decide)⟩

/-- C8: on an assignment list shorter than the dimensionality the source runs
`for i in (len_result - dimensions)`, iterating an int, so instead of padding
with empty labels it raises `TypeError`. -/
theorem C8_padding_type_error :
    _assignments_to_atom_labels [["A", "2", "CA"]] 2 "A" = .error .typeError := by
  decide

/-- C3 counterexample: a file whose first line's leading keyword is `DATA`,
before any `FORMAT` line, parses successfully (the `DATA` row is recorded
verbatim), contradicting the claim that it fails with `DataBeforeFormat`. -/
theorem C3_counterexample_data_line_parses :
    read_db_file_records [["DATA", "SEQUENCE", "A"]] "f" =
      .ok ⟨"f", [⟨1, "DATA", .fields [.vStr "SEQUENCE", .vStr "A"],
                  ⟨"f", 1, ["DATA", "SEQUENCE", "A"]⟩⟩]⟩ := by
  decide

/-- C4 counterexample: a `FORMAT` line with the unresolvable code `%z`
preceding any `VARS` line fails with `BadFieldFormat` (raised by the
constructor resolver), not with `NoVarsLine`. -/
theorem C4_counterexample_bad_code_first :
    read_db_file_records [["FORMAT", "%z"]] "f" = .error (.badFieldFormat 1 1) := by
  decide

/-- C5 counterexample: after the header closes with the nonempty schema
`VARS A` / `FORMAT %d`, a line with leading keyword `REMARK` is handed to the
record builder, whose `int` conversion of `REMARK` fails — so the line is not
recorded verbatim and does raise a conversion error. -/
theorem C5_counterexample_remark_raises :
    read_db_file_records [["VARS", "A"], ["FORMAT", "%d"], ["REMARK"]] "f" =
      .error (.badFieldFormat 3 1) := by
  decide

/-- C3 (amended): a line whose leading keyword is NONE of `VARS`, `FORMAT`,
`REMARK`, `#`, `DATA`, appearing before any `FORMAT` line (with the earlier
lines header-benign and containing at most one `VARS`), fails with
`DataBeforeFormat` citing that row's own 1-based line number. -/
theorem C3_data_before_format (name : String) (pre : List (List String)) (t : String)
    (args : List String) (rest : List (List String))
    (hpre : ∀ r ∈ pre, ∀ s, r.head? = some s →
      s = "VARS" ∨ s = "REMARK" ∨ s = "#" ∨ s = "DATA")
    (hvars : countVars pre ≤ 1)
    (h1 : t ≠ "VARS") (h2 : t ≠ "FORMAT") (h3 : t ≠ "REMARK") (h4 : t ≠ "#")
    (h5 : t ≠ "DATA") :
    read_db_file_records (pre ++ (t :: args) :: rest) name =
      .error (.dataBeforeFormat (pre.length + 1)) := by
  obtain ⟨st2, heq, hin2, _⟩ :=
    parse_header_benign name pre initPState 1 ((t :: args) :: rest) rfl hpre
      (by simpa [initPState] using hvars)
  unfold read_db_file_records
  rw [heq, parseLines_step_dataBeforeFormat name st2 (1 + pre.length) t args rest hin2
    h1 h2 h3 h4 h5]
  simp [Except.map, Nat.add_comm]

/-- C3 witness: in `VARS A` / `DATA X` / `1 2` the numeric row at line 3
triggers `DataBeforeFormat` citing line 3. -/
theorem C3_data_before_format_witness :
    read_db_file_records [["VARS", "A"], ["DATA", "X"], ["1", "2"]] "f" =
      .error (.dataBeforeFormat 3) := by
  have h := C3_data_before_format "f" [["VARS", "A"], ["DATA", "X"]] "1" ["2"] []
    (by
      intro r hr s hs
      simp only [List.mem_cons, List.not_mem_nil, or_false] at hr
      rcases hr with rfl | rfl
      · injection hs with h'; subst h'; left; rfl
      · injection hs with h'; subst h'; right; right; right; rfl)
    (by decide) (by decide) (by decide) (by decide) (by decide) (by decide)
  simpa using h

/-- C4 (amended): a `FORMAT` line preceding any `VARS` line (earlier lines
being only `REMARK`/`#`/`DATA`) fails with `NoVarsLine`, provided each of its
format codes is resolvable (its last character is one of `d`, `f`, `s`, `e`);
an unresolvable code fails with `BadFieldFormat` first instead. -/
theorem C4_no_vars_line (name : String) (pre : List (List String)) (codes : List String)
    (rest : List (List String))
    (hpre : ∀ r ∈ pre, ∀ s, r.head? = some s → s = "REMARK" ∨ s = "#" ∨ s = "DATA")
    (hcodes : ∀ c ∈ codes, ∃ ch, c.data.getLast? = some ch ∧
      (ch = 'd' ∨ ch = 'f' ∨ ch = 's' ∨ ch = 'e')) :
    read_db_file_records (pre ++ ("FORMAT" :: codes) :: rest) name =
      .error (.noVarsLine (pre.length + 1)) := by
  have hpre' : ∀ r ∈ pre, ∀ s, r.head? = some s →
      s = "VARS" ∨ s = "REMARK" ∨ s = "#" ∨ s = "DATA" :=
    fun r hr s hs => Or.inr (hpre r hr s hs)
  have h0 : countVars pre = 0 := countVars_eq_zero pre (fun r hr s hs => by
    rcases hpre r hr s hs with h | h | h <;> subst h <;> decide)
  obtain ⟨st2, heq, hin2, hnames⟩ :=
    parse_header_benign name pre initPState 1 (("FORMAT" :: codes) :: rest) rfl hpre'
      (by simp [initPState, h0])
  have hnone : st2.column_names = none := by rw [hnames h0]; rfl
  unfold read_db_file_records
  rw [heq, parseLines_step_noVars name st2 (1 + pre.length) codes rest hin2 hnone hcodes]
  simp [Except.map, Nat.add_comm]

/-- C4 witness: `REMARK hi` then `FORMAT %5d %3s` fails `NoVarsLine` at
line 2. -/
theorem C4_no_vars_line_witness :
    read_db_file_records [["REMARK", "hi"], ["FORMAT", "%5d", "%3s"]] "f" =
      .error (.noVarsLine 2) := by
  have h := C4_no_vars_line "f" [["REMARK", "hi"]] ["%5d", "%3s"] []
    (by
      intro r hr s hs
      simp only [List.mem_cons, List.not_mem_nil, or_false] at hr
      subst hr
      injection hs with h'; subst h'; left; rfl)
    (by
      intro c hc
      simp only [List.mem_cons, List.not_mem_nil, or_false] at hc
      rcases hc with rfl | rfl
      · exact ⟨'d', rfl, Or.inl rfl⟩
      · exact ⟨'s', rfl, Or.inr (Or.inr (Or.inl rfl))⟩)
  simpa using h

/-- C5 (amended): once the header has closed over a NONEMPTY schema, every
line whose leading keyword is not `VARS`/`FORMAT` — including `REMARK`, `#`
and `DATA` — is handed to the record builder: a conversion or column-count
error aborts the parse, and on success the line is stored as a `__VALUES__`
record, not verbatim. -/
theorem C5_data_mode_delegates (name : String) (st : PState) (n : Nat) (t : String)
    (args : List String) (rest : List (List String))
    (nm : String) (nms : List String) (fm : Ctor) (fms : List Ctor)
    (hin : st.in_header = false)
    (hnames : st.column_names = some (nm :: nms))
    (hformats : st.column_formats = some (fm :: fms))
    (h1 : t ≠ "VARS") (h2 : t ≠ "FORMAT") :
    (∀ e, _build_values_or_raise (fm :: fms) (nm :: nms) (t :: args) ⟨name, n, t :: args⟩ =
        .error e →
      parseLines name st n ((t :: args) :: rest) = .error e)
    ∧ ∀ vals, _build_values_or_raise (fm :: fms) (nm :: nms) (t :: args) ⟨name, n, t :: args⟩ =
        .ok vals →
      ∃ st2, parseLines name st n ((t :: args) :: rest) = parseLines name st2 (n + 1) rest
        ∧ st2.records = st.records ++ [⟨st2.counter "__VALUES__", "__VALUES__", .fields vals,
            ⟨name, n, t :: args⟩⟩] := by
  constructor
  · intro e he
    simp [parseLines, hin, h1, h2, hnames, hformats, he]
  · intro vals hv
    refine ⟨{ st with
        records := st.records ++ [⟨cntDel (cntInc (cntInc st.counter t) "__VALUES__") t
          "__VALUES__", "__VALUES__", .fields vals, ⟨name, n, t :: args⟩⟩],
        counter := cntDel (cntInc (cntInc st.counter t) "__VALUES__") t }, ?_, rfl⟩
    simp [parseLines, hin, h1, h2, hnames, hformats, hv]

/-- C5 witness: in data mode over schema `A : %d`, the line `REMARK` goes to
the record builder and aborts the parse with `BadFieldFormat`. -/
theorem C5_data_mode_delegates_witness :
    parseLines "f" ⟨[], some ["A"], some [Ctor.int], fun _ => 0, false⟩ 3 [["REMARK"]] =
      .error (.badFieldFormat 3 1) :=
  (C5_data_mode_delegates "f" ⟨[], some ["A"], some [Ctor.int], fun _ => 0, false⟩ 3
    "REMARK" [] [] "A" [] Ctor.int [] rfl rfl rfl (by decide) (by decide)).1
    (.badFieldFormat 3 1) (by decide)

/-- The verbatim generic records produced for data rows when the accepted
schema is empty: type is the row's leading token, values its remaining
tokens, index the running per-type count. -/
def genericRecords (name : String) (cnt : String → Nat) : Nat → List (List String) → List DbRecord
  | _, [] => []
  | n, [] :: rest => genericRecords name cnt (n + 1) rest
  | n, (t :: args) :: rest =>
    ⟨cnt t + 1, t, .fields (args.map PyVal.vStr), ⟨name, n, t :: args⟩⟩ ::
      genericRecords name (cntInc cnt t) (n + 1) rest

/-- With an empty schema (`column_names` = `some []`, Python-falsy) every
non-`VARS`/`FORMAT` line is recorded verbatim as a generic record and the
parse succeeds. -/
theorem parseLines_generic (name : String) (rows : List (List String)) :
    ∀ (st : PState) (n : Nat),
    st.in_header = false →
    st.column_names = some [] →
    st.column_formats = some [] →
    (∀ r ∈ rows, ∀ t, r.head? = some t → t ≠ "VARS" ∧ t ≠ "FORMAT") →
    parseLines name st n rows = .ok (st.records ++ genericRecords name st.counter n rows) := by
  induction rows with
  | nil =>
    intro st n _ _ _ _
    simp [parseLines, genericRecords]
  | cons row rows ih =>
    intro st n hin hnames hformats hrows
    match row with
    | [] =>
      rw [show parseLines name st n ([] :: rows) = parseLines name st (n + 1) rows from by
        simp [parseLines]]
      rw [ih st (n + 1) hin hnames hformats (fun r hr => hrows r (List.mem_cons_of_mem _ hr))]
      simp [genericRecords]
    | t :: args =>
      have ht := hrows (t :: args) (List.mem_cons_self _ _) t rfl
      calc parseLines name st n ((t :: args) :: rows)
          = parseLines name { st with
              records := st.records ++ [⟨cntInc st.counter t t, t,
                .fields (args.map PyVal.vStr), ⟨name, n, t :: args⟩⟩],
              counter := cntInc st.counter t } (n + 1) rows := by
            simp [parseLines, hin, ht.1, ht.2, hnames, hformats]
        _ = .ok ((st.records ++ [⟨cntInc st.counter t t, t,
                .fields (args.map PyVal.vStr), ⟨name, n, t :: args⟩⟩]) ++
              genericRecords name (cntInc st.counter t) (n + 1) rows) :=
            ih { st with
              records := st.records ++ [⟨cntInc st.counter t t, t,
                .fields (args.map PyVal.vStr), ⟨name, n, t :: args⟩⟩],
              counter := cntInc st.counter t } (n + 1) hin hnames hformats
              (fun r hr => hrows r (List.mem_cons_of_mem _ hr))
        _ = .ok (st.records ++ genericRecords name st.counter n ((t :: args) :: rows)) := by
            simp [genericRecords, cntInc]

/-- C10: a file whose `VARS` line declares zero columns and whose `FORMAT`
line declares zero codes parses successfully; every subsequent data row is
stored verbatim as a generic record (type = leading token, values = remaining
tokens), with no `__VALUES__` record built and no `WrongColumnCount` or
`BadFieldFormat` raised, whatever the rows' field counts. -/
theorem C10_empty_schema (name : String) (rows : List (List String))
    (hrows : ∀ r ∈ rows, ∀ t, r.head? = some t → t ≠ "VARS" ∧ t ≠ "FORMAT") :
    read_db_file_records (["VARS"] :: ["FORMAT"] :: rows) name =
      .ok ⟨name,
        ⟨1, "VARS", .fields [], ⟨name, 1, ["VARS"]⟩⟩ ::
        ⟨1, "FORMAT", .fields [], ⟨name, 2, ["FORMAT"]⟩⟩ ::
        genericRecords name (cntInc (cntInc (fun _ => 0) "VARS") "FORMAT") 3 rows⟩ := by
  unfold read_db_file_records
  have step12 : parseLines name initPState 1 (["VARS"] :: ["FORMAT"] :: rows) =
      parseLines name
        ⟨[⟨1, "VARS", .fields [], ⟨name, 1, ["VARS"]⟩⟩,
          ⟨1, "FORMAT", .fields [], ⟨name, 2, ["FORMAT"]⟩⟩],
         some [], some [], cntInc (cntInc (fun _ => 0) "VARS") "FORMAT", false⟩ 3 rows := by
    simp [parseLines, initPState, _formats_to_constructors, formatsAux,
      _check_var_and_format_count, cntInc]
  rw [step12, parseLines_generic name rows _ 3 rfl rfl rfl hrows]
  simp [Except.map]

/-- C10 witness: two rows headed `9`, of different field counts, become the
generic records `(1, "9", ["8"])` and `(2, "9", [])`. -/
theorem C10_empty_schema_witness :
    read_db_file_records [["VARS"], ["FORMAT"], ["9", "8"], ["9"]] "f" =
      .ok ⟨"f",
        [⟨1, "VARS", .fields [], ⟨"f", 1, ["VARS"]⟩⟩,
         ⟨1, "FORMAT", .fields [], ⟨"f", 2, ["FORMAT"]⟩⟩,
         ⟨1, "9", .fields [.vStr "8"], ⟨"f", 3, ["9", "8"]⟩⟩,
         ⟨2, "9", .fields [], ⟨"f", 4, ["9"]⟩⟩]⟩ := by
  have h := C10_empty_schema "f" [["9", "8"], ["9"]]
    (by
      intro r hr t ht
      simp only [List.mem_cons, List.not_mem_nil, or_false] at hr
      rcases hr with rfl | rfl
      · injection ht with h'; subst h'; exact ⟨by decide, by decide⟩
      · injection ht with h'; subst h'; exact ⟨by decide, by decide⟩)
  exact h.trans (by decide)

/-! ## Lemmas about the peak extractor -/

@[simp] theorem ebind_ok (a : α) (f : α → Except ε β) : (Except.ok a >>= f) = f a := rfl

@[simp] theorem ebind_error (e : ε) (f : α → Except ε β) :
    (Except.error e >>= f : Except ε β) = .error e := rfl

@[simp] theorem epure_ok (a : α) : (pure a : Except ε α) = .ok a := rfl

/-- Peel one monadic bind off a successful `Except` computation. -/
theorem of_bind_ok {x : Except ε α} {f : α → Except ε β} {b : β}
    (h : x >>= f = .ok b) : ∃ a, x = .ok a ∧ f a = .ok b := by
  cases x with
  | ok a => exact ⟨a, rfl, h⟩
  | error e => simp at h

/-- The mean of the empty list raises `ZeroDivisionError` (division by
`len([]) = 0`). -/
theorem _mean_nil : _mean ([] : List PyVal) = .error .zeroDivisionError := by
  simp [_mean, sumAux, pyDiv, toRat?]

/-- A successful `meanAll` needs every per-axis list to average. -/
theorem meanAll_ok_mem {l : List (List PyVal)} {out : List PyVal}
    (h : meanAll l = .ok out) : ∀ x ∈ l, ∃ y, _mean x = .ok y := by
  induction l generalizing out with
  | nil => intro x hx; cases hx
  | cons a l ih =>
    intro x hx
    simp only [meanAll] at h
    obtain ⟨m, hm, h⟩ := of_bind_ok h
    obtain ⟨ms, hms, -⟩ := of_bind_ok h
    rcases List.mem_cons.mp hx with rfl | hx'
    · exact ⟨m, hm⟩
    · exact ih hms x hx'

/-- `meanAll` on `dims ≥ 1` empty per-axis lists raises `ZeroDivisionError`. -/
theorem meanAll_replicate_nil (dims : Nat) (h : dims ≠ 0) :
    meanAll (List.replicate dims []) = .error .zeroDivisionError := by
  cases dims with
  | zero => exact absurd rfl h
  | succ n => simp [meanAll, _mean_nil]

/-- The noise-filter skip condition of `read_peak_file` on one row: the
`TYPE` column resolves, its value is loaded, and it is `!= PEAK` (1). -/
def rowSkipped (cols : List PyVal) (r : DbRecord) : Prop :=
  ∃ i v, lookupKey cols "TYPE" = .ok i ∧ getIdx r.values.toPyList i = .ok v ∧ pyNe1 v = true

/-- With noise filtering on and every row skipped, the row loop only appends
empty peaks and never touches the frequency lists. -/
theorem peakFold_all_skipped (cols : List PyVal) (dims : Nat) (args : Args)
    (hfn : args.filter_noise = true) (data : List DbRecord)
    (hdata : ∀ r ∈ data, rowSkipped cols r) :
    ∀ (serial : Nat) (peaks : List Peak) (freqs : List (List PyVal)),
    peakFold cols dims args serial (peaks, freqs) data =
      .ok (peaks ++ List.replicate data.length [], freqs) := by
  induction data with
  | nil => intro serial peaks freqs; simp [peakFold]
  | cons line rest ih =>
    intro serial peaks freqs
    obtain ⟨i, v, hi, hv, hne⟩ := hdata line (List.mem_cons_self _ _)
    have hstep : peakStep cols dims args serial (peaks, freqs) line =
        .ok (peaks ++ [[]], freqs) := by
      simp [peakStep, hi, hv, hne, hfn]
    rw [show peakFold cols dims args serial (peaks, freqs) (line :: rest) =
        (peakStep cols dims args serial (peaks, freqs) line >>= fun acc2 =>
          peakFold cols dims args (serial + 1) acc2 rest) from rfl]
    rw [hstep, ebind_ok, ih (fun r hr => hdata r (List.mem_cons_of_mem _ hr)) (serial + 1)
      (peaks ++ [[]]) freqs]
    simp [List.replicate_succ]

/-- C9: a document with at least one `_AXIS` column whose row loop
contributes nothing — no `__VALUES__` records at all, or noise filtering on
and every row skipped — makes `read_peak_file` raise `ZeroDivisionError` while
averaging the empty per-axis spectrometer-frequency lists, rather than
returning a `PeakList` with empty frequencies. -/
theorem C9_mean_of_empty_frequencies (gdb : DbFile) (args : Args)
    (cols : List PyVal) (labels : List String)
    (hcols : get_gdb_columns gdb = .ok cols)
    (hlabels : axisLabelsAux cols = .ok labels)
    (hne : labels ≠ [])
    (hrows : select_records gdb "__VALUES__" = []
      ∨ (args.filter_noise = true ∧
          ∀ r ∈ select_records gdb "__VALUES__", rowSkipped cols r)) :
    read_peak_file gdb args = .error .zeroDivisionError := by
  have haxis : _get_axis_labels gdb = .ok labels := by
    simp [_get_axis_labels, hcols, hlabels]
  have hdim : _get_peak_list_dimension gdb = .ok labels.length := by
    simp [_get_peak_list_dimension, haxis]
  have hlen : labels.length ≠ 0 := fun h => hne (List.length_eq_zero.mp h)
  rcases hrows with hdata | ⟨hfn, hdata⟩
  · simp [read_peak_file, hdim, hcols, haxis, hdata, peakFold,
      meanAll_replicate_nil labels.length hlen]
  · have hfold := peakFold_all_skipped cols labels.length args hfn
      (select_records gdb "__VALUES__") hdata 1 []
      (List.replicate labels.length [])
    simp [read_peak_file, hdim, hcols, haxis, hfold,
      meanAll_replicate_nil labels.length hlen]

/-- C9 witness: a two-column peak-like header with an `X_AXIS` column and no
data rows fails with `ZeroDivisionError`. -/
theorem C9_mean_of_empty_frequencies_witness :
    read_peak_file
      ⟨"f", [⟨1, "VARS", .fields [.vStr "X_AXIS", .vStr "TYPE"],
        ⟨"f", 1, ["VARS", "X_AXIS", "TYPE"]⟩⟩,
        ⟨1, "FORMAT", .fields [.vStr "%f", .vStr "%d"],
        ⟨"f", 2, ["FORMAT", "%f", "%d"]⟩⟩]⟩ ⟨false⟩ =
      .error .zeroDivisionError :=
  C9_mean_of_empty_frequencies _ ⟨false⟩ [.vStr "X_AXIS", .vStr "TYPE"] ["X"]
    (by decide) (by decide) (by decide) (Or.inl (by decide))

/-- Indices produced by `enumFrom` are below `start + length`. -/
theorem mem_enumFrom_fst_lt {α : Type} :
    ∀ (l : List α) (n : Nat) (p : Nat × α), p ∈ l.enumFrom n → p.1 < n + l.length := by
  intro l
  induction l with
  | nil => intro n p hp; cases hp
  | cons a l ih =>
    intro n p hp
    simp only [List.enumFrom] at hp
    rcases List.mem_cons.mp hp with rfl | hp'
    · simp
    · have := ih (n + 1) p hp'
      simp only [List.length_cons]
      omega

/-- The per-dimension loop: one axis entry per enumerated dimension, all of
axis kind; the frequency lists keep their length and the lists at indices not
touched by the loop are unchanged. -/
theorem axisLoop_ok (cols : List PyVal) (vals : List PyVal) (labels : List AtomLabel) :
    ∀ (pairs : List (Nat × String)) (freqs : List (List PyVal))
      (entries : List (PeakKey × PeakEntry)) (freqs2 : List (List PyVal)),
    axisLoop cols vals labels pairs freqs = .ok (entries, freqs2) →
    entries.length = pairs.length
    ∧ (∀ e ∈ entries, ∃ i a, e = (PeakKey.axis i, PeakEntry.axis a))
    ∧ freqs2.length = freqs.length
    ∧ ∀ j, (∀ p ∈ pairs, p.1 ≠ j) → freqs2[j]? = freqs[j]? := by
  intro pairs
  induction pairs with
  | nil =>
    intro freqs entries freqs2 h
    simp only [axisLoop, Except.ok.injEq, Prod.mk.injEq] at h
    obtain ⟨h1, h2⟩ := h
    subst h1; subst h2
    exact ⟨rfl, by simp, rfl, fun j _ => rfl⟩
  | cons p rest ih =>
    intro freqs entries freqs2 h
    obtain ⟨i, dim⟩ := p
    simp only [axisLoop] at h
    obtain ⟨sIdx, -, h⟩ := of_bind_ok h
    obtain ⟨shift, -, h⟩ := of_bind_ok h
    obtain ⟨peIdx, -, h⟩ := of_bind_ok h
    obtain ⟨point_error, -, h⟩ := of_bind_ok h
    obtain ⟨pIdx, -, h⟩ := of_bind_ok h
    obtain ⟨point, -, h⟩ := of_bind_ok h
    obtain ⟨rel, -, h⟩ := of_bind_ok h
    obtain ⟨se, -, h⟩ := of_bind_ok h
    obtain ⟨hzIdx, -, h⟩ := of_bind_ok h
    obtain ⟨pos_hz, -, h⟩ := of_bind_ok h
    obtain ⟨label, -, h⟩ := of_bind_ok h
    obtain ⟨sf, -, h⟩ := of_bind_ok h
    obtain ⟨pr, hrec, h⟩ := of_bind_ok h
    obtain ⟨restE, freqs''⟩ := pr
    simp only [epure_ok, Except.ok.injEq, Prod.mk.injEq] at h
    obtain ⟨h1, h2⟩ := h
    subst h1; subst h2
    obtain ⟨ih1, ih2, ih3, ih4⟩ := ih (freqs.set i (freqs.getD i [] ++ [sf])) restE freqs'' hrec
    refine ⟨by simp [ih1], ?_, by rw [ih3, List.length_set], ?_⟩
    · intro e he
      rcases List.mem_cons.mp he with rfl | he'
      · exact ⟨i, _, rfl⟩
      · exact ih2 e he'
    · intro j hj
      have hji : i ≠ j := hj (i, dim) (List.mem_cons_self _ _)
      rw [ih4 j (fun q hq => hj q (List.mem_cons_of_mem _ hq))]
      exact List.getElem?_set_ne hji

/-- One row-loop step: a skipped row appends the empty peak and leaves the
frequencies alone; a kept row appends a peak made of one `values` entry
followed by `min dims 4` axis entries, touching only frequency indices below
`min dims 4`. -/
theorem peakStep_ok (cols : List PyVal) (dims : Nat) (args : Args) (serial : Nat)
    (acc acc2 : List Peak × List (List PyVal)) (line : DbRecord)
    (h : peakStep cols dims args serial acc line = .ok acc2) :
    acc2 = (acc.1 ++ [([] : Peak)], acc.2)
    ∨ ∃ pv axE,
        acc2.1 = acc.1 ++ [(PeakKey.values, PeakEntry.values pv) :: axE]
        ∧ axE.length = min dims 4
        ∧ (∀ e ∈ axE, ∃ i a, e = (PeakKey.axis i, PeakEntry.axis a))
        ∧ acc2.2.length = acc.2.length
        ∧ ∀ j, min dims 4 ≤ j → acc2.2[j]? = acc.2[j]? := by
  simp only [peakStep] at h
  obtain ⟨tIdx, -, h⟩ := of_bind_ok h
  obtain ⟨ptype, -, h⟩ := of_bind_ok h
  by_cases hskip : (args.filter_noise && pyNe1 ptype) = true
  · rw [if_pos hskip] at h
    simp only [epure_ok, Except.ok.injEq] at h
    exact Or.inl h.symm
  · rw [if_neg hskip] at h
    obtain ⟨aIdx, -, h⟩ := of_bind_ok h
    obtain ⟨assignment, -, h⟩ := of_bind_ok h
    obtain ⟨astr, -, h⟩ := of_bind_ok h
    obtain ⟨labels, -, h⟩ := of_bind_ok h
    obtain ⟨hIdx, -, h⟩ := of_bind_ok h
    obtain ⟨height, -, h⟩ := of_bind_ok h
    obtain ⟨dhIdx, -, h⟩ := of_bind_ok h
    obtain ⟨height_error, -, h⟩ := of_bind_ok h
    obtain ⟨hpe, -, h⟩ := of_bind_ok h
    obtain ⟨vIdx, -, h⟩ := of_bind_ok h
    obtain ⟨volume, -, h⟩ := of_bind_ok h
    obtain ⟨ve, -, h⟩ := of_bind_ok h
    obtain ⟨pr, hax, h⟩ := of_bind_ok h
    obtain ⟨axE, freqs2⟩ := pr
    simp only [epure_ok, Except.ok.injEq] at h
    subst h
    obtain ⟨hlen, hmem, hflen, hfget⟩ :=
      axisLoop_ok cols line.values.toPyList labels
        ((List.take dims ["X", "Y", "Z", "A"]).enum) acc.2 axE freqs2 hax
    have hidx : ∀ p ∈ (List.take dims ["X", "Y", "Z", "A"]).enum, p.1 < min dims 4 := by
      intro p hp
      have := mem_enumFrom_fst_lt (List.take dims ["X", "Y", "Z", "A"]) 0 p
        (by simpa [List.enum] using hp)
      simpa [List.length_take] using this
    refine Or.inr ⟨⟨serial, volume, height, false, ""⟩, axE, rfl, ?_, hmem, hflen, ?_⟩
    · rw [hlen]
      simp [List.enum_length, List.length_take]
    · intro j hj
      exact hfget j (fun p hp => by have := hidx p hp; omega)

/-- The whole row loop: every produced peak is either carried over, empty
(a skipped row), or one `values` entry plus `min dims 4` axis entries; the
frequency lists keep their length and indices at or above `min dims 4` are
never touched. -/
theorem peakFold_ok (cols : List PyVal) (dims : Nat) (args : Args) :
    ∀ (data : List DbRecord) (serial : Nat) (acc acc2 : List Peak × List (List PyVal)),
    peakFold cols dims args serial acc data = .ok acc2 →
    (∀ p ∈ acc2.1, p ∈ acc.1 ∨ p = [] ∨ ∃ pv axE,
        p = (PeakKey.values, PeakEntry.values pv) :: axE
        ∧ axE.length = min dims 4
        ∧ ∀ e ∈ axE, ∃ i a, e = (PeakKey.axis i, PeakEntry.axis a))
    ∧ acc2.2.length = acc.2.length
    ∧ ∀ j, min dims 4 ≤ j → acc2.2[j]? = acc.2[j]? := by
  intro data
  induction data with
  | nil =>
    intro serial acc acc2 h
    simp only [peakFold, Except.ok.injEq] at h
    subst h
    exact ⟨fun p hp => Or.inl hp, rfl, fun _ _ => rfl⟩
  | cons line rest ih =>
    intro serial acc acc2 h
    simp only [peakFold] at h
    obtain ⟨accMid, hstep, hrest⟩ := of_bind_ok h
    obtain ⟨ih1, ih2, ih3⟩ := ih (serial + 1) accMid acc2 hrest
    rcases peakStep_ok cols dims args serial acc accMid line hstep with
      heq | ⟨pv, axE, h1, h2, h3, h4, h5⟩
    · subst heq
      refine ⟨?_, ih2, ih3⟩
      intro p hp
      rcases ih1 p hp with hin | h'
      · rcases List.mem_append.mp hin with hA | hB
        · exact Or.inl hA
        · simp only [List.mem_singleton] at hB
          exact Or.inr (Or.inl hB)
      · exact Or.inr h'
    · refine ⟨?_, by rw [ih2, h4], fun j hj => by rw [ih3 j hj, h5 j hj]⟩
      intro p hp
      rcases ih1 p hp with hin | h'
      · rw [h1] at hin
        rcases List.mem_append.mp hin with hA | hB
        · exact Or.inl hA
        · simp only [List.mem_singleton] at hB
          exact Or.inr (Or.inr ⟨pv, axE, hB, h2, h3⟩)
      · exact Or.inr h'

/-- A list of axis-kind entries counts all axis and no values. -/
theorem count_all_axis (axE : List (PeakKey × PeakEntry))
    (h : ∀ e ∈ axE, ∃ i a, e = (PeakKey.axis i, PeakEntry.axis a)) :
    axCount axE = axE.length ∧ valCount axE = 0 := by
  induction axE with
  | nil => exact ⟨rfl, rfl⟩
  | cons e rest ih =>
    obtain ⟨i, a, rfl⟩ := h e (List.mem_cons_self _ _)
    obtain ⟨h1, h2⟩ := ih (fun e' he' => h e' (List.mem_cons_of_mem _ he'))
    exact ⟨by simp [axCount, h1], by simpa [valCount] using h2⟩

theorem axCount_cons_values (pv : PeakValues) (axE : List (PeakKey × PeakEntry)) :
    axCount ((PeakKey.values, PeakEntry.values pv) :: axE) = axCount axE := by
  simp [axCount]

theorem valCount_cons_values (pv : PeakValues) (axE : List (PeakKey × PeakEntry)) :
    valCount ((PeakKey.values, PeakEntry.values pv) :: axE) = valCount axE + 1 := by
  simp [valCount, Nat.add_comm]

/-- C1 (amended): whenever `read_peak_file` returns a `PeakList`, each of its
peaks is either the empty dict (a row skipped by noise filtering) or has
exactly `num_axis` `PeakAxis` entries plus exactly one `PeakValues` entry. -/
theorem C1_peak_axis_and_values_entries (gdb : DbFile) (args : Args) (pl : PeakList)
    (h : read_peak_file gdb args = .ok pl) :
    ∀ p ∈ pl.peaks, p = [] ∨
      (axCount p = pl.peak_list_data.num_axis ∧ valCount p = 1) := by
  simp only [read_peak_file] at h
  obtain ⟨dims, hdims, h⟩ := of_bind_ok h
  obtain ⟨cols, hcols, h⟩ := of_bind_ok h
  obtain ⟨axisLabels, hlabels, h⟩ := of_bind_ok h
  obtain ⟨acc2, hfold, h⟩ := of_bind_ok h
  obtain ⟨raw_peaks, freqs⟩ := acc2
  obtain ⟨sfs, hmeans, h⟩ := of_bind_ok h
  simp only [epure_ok, Except.ok.injEq] at h
  subst h
  obtain ⟨h1, h2, h3⟩ := peakFold_ok cols dims args (select_records gdb "__VALUES__") 1
    ([], List.replicate dims []) (raw_peaks, freqs) hfold
  have hmin : min dims 4 = dims := by
    rcases le_or_lt dims 4 with hle | hgt
    · exact Nat.min_eq_left hle
    · exfalso
      have hget := h3 4 (by omega)
      have hmem : ([] : List PyVal) ∈ freqs := by
        apply List.get?_mem
        rw [List.get?_eq_getElem?]
        rw [show freqs[4]? = (List.replicate dims ([] : List PyVal))[4]? from hget]
        simp [List.getElem?_replicate]
        omega
      obtain ⟨y, hy⟩ := meanAll_ok_mem hmeans [] hmem
      rw [_mean_nil] at hy
      cases hy
  intro p hp
  rcases h1 p hp with hin | hnil | ⟨pv, axE, hshape, hlen, hmem2⟩
  · cases hin
  · exact Or.inl hnil
  · right
    subst hshape
    obtain ⟨ha, hv⟩ := count_all_axis axE hmem2
    constructor
    · rw [axCount_cons_values, ha, hlen, hmin]
    · rw [valCount_cons_values, hv]

/-- The C1 scenario document, parsed. -/
def gdbC1 : DbFile :=
  (read_db_file_records
    [["VARS", "X_AXIS", "DX", "X_PPM", "X_HZ", "TYPE", "ASS", "HEIGHT", "DHEIGHT", "VOL"],
     ["FORMAT", "%f", "%f", "%f", "%f", "%d", "%s", "%f", "%f", "%f"],
     ["2.0", "0.5", "4.0", "800.0", "1", "A2CA", "2.0", "1.0", "3.0"],
     ["2.0", "0.5", "4.0", "800.0", "2", "A2CA", "2.0", "1.0", "3.0"]] "f").toOption.getD
    ⟨"f", []⟩

/-- The peak list read from the C1 scenario document with noise filtering. -/
def plC1 : PeakList :=
  (read_peak_file gdbC1 ⟨true⟩).toOption.getD ⟨⟨0, [], .vNone, .vNone, []⟩, []⟩

/-- C1 witness: the amended theorem instantiated at the scenario document's
first (kept) peak. -/
theorem C1_peak_axis_and_values_entries_witness :
    plC1.peaks.getD 0 [] = [] ∨
      (axCount (plC1.peaks.getD 0 []) = plC1.peak_list_data.num_axis ∧
        valCount (plC1.peaks.getD 0 []) = 1) :=
  C1_peak_axis_and_values_entries gdbC1 ⟨true⟩ plC1 (by decide) _ (by decide)

/-- C1 counterexample: a one-dimensional peak file with one genuine peak row
and one noise row, read with noise filtering on, returns a `PeakList` whose
second peak is the empty dict — zero `PeakAxis` entries and zero `PeakValues`
entries although `num_axis = 1`. -/
theorem C1_counterexample_skipped_row_empty_peak :
    (read_db_file_records
        [["VARS", "X_AXIS", "DX", "X_PPM", "X_HZ", "TYPE", "ASS", "HEIGHT", "DHEIGHT", "VOL"],
         ["FORMAT", "%f", "%f", "%f", "%f", "%d", "%s", "%f", "%f", "%f"],
         ["2.0", "0.5", "4.0", "800.0", "1", "A2CA", "2.0", "1.0", "3.0"],
         ["2.0", "0.5", "4.0", "800.0", "2", "A2CA", "2.0", "1.0", "3.0"]] "f").toOption.map
      (fun g => read_peak_file g ⟨true⟩) =
    some (.ok ⟨⟨1, ["X"], .vNone, .vNone, [.vFloat 200]⟩,
      [[(PeakKey.values, .values ⟨1, .vFloat 3, .vFloat 2, false, ""⟩),
        (PeakKey.axis 0, .axis ⟨⟨.vStr "A", .vInt 2, .vStr "ALA", .vStr "CA"⟩, .vFloat 4, .vInt 1⟩)],
       []]⟩)
    ∧ axCount ([] : Peak) = 0 ∧ valCount ([] : Peak) = 0 := by
  exact ⟨by decide, rfl, rfl⟩

end NmrPipe
